import Mathlib

/-!
Verification of the version-range consistency checker
(`check_version_validity.py`).

The Python module is embedded shallowly:

* machine integers become `Int` (Python integers are unbounded, so no
  modular wrap is needed);
* `None`-able fields become `Option`;
* code that can raise an exception returns `Except Unit _`, where
  `.error ()` models a raised exception;
* the third-party `packaging` library (version parsing, requirement
  parsing) is modelled from its documented behaviour, as noted on the
  corresponding definitions.
-/

/-- Decidable equality for `Except`, used to evaluate the embedded
functions on concrete inputs. -/
instance {ε α : Type} [DecidableEq ε] [DecidableEq α] : DecidableEq (Except ε α) := fun x y =>
  match x, y with
  | .ok a, .ok b =>
    if h : a = b then .isTrue (by rw [h]) else .isFalse (by intro hh; cases hh; exact h rfl)
  | .error a, .error b =>
    if h : a = b then .isTrue (by rw [h]) else .isFalse (by intro hh; cases hh; exact h rfl)
  | .ok _, .error _ => .isFalse (by intro hh; cases hh)
  | .error _, .ok _ => .isFalse (by intro hh; cases hh)

namespace CheckVersionValidity

/-- The eight comparison operators of `VersionOp` (a `StrEnum` in the
source): `~=`, `==`, `!=`, `<=`, `>=`, `<`, `>`, `===`. -/
inductive VersionOp where
  | compatible
  | matching
  | excluding
  | leq
  | geq
  | lt
  | gt
  | equal
deriving DecidableEq, Repr

/-- Source `parse_version_op`: looks an operator string up in the
`_VERSION_OPS` table built from the enum values and raises on an unknown
operator. -/
def parse_version_op (s : String) : Except Unit VersionOp :=
  if s = "~=" then .ok .compatible
  else if s = "==" then .ok .matching
  else if s = "!=" then .ok .excluding
  else if s = "<=" then .ok .leq
  else if s = ">=" then .ok .geq
  else if s = "<" then .ok .lt
  else if s = ">" then .ok .gt
  else if s = "===" then .ok .equal
  else .error ()

/-- Source dataclass `VersionTriple(major, minor, patch)` with optional
minor and patch components. -/
structure VersionTriple where
  major : Int
  minor : Option Int
  patch : Option Int
deriving DecidableEq, Repr

namespace VersionTriple

/-- Source `VersionTriple.bump`: increment the smallest version field
that is defined. -/
def bump (t : VersionTriple) : VersionTriple :=
  match t.patch with
  | some p => ⟨t.major, t.minor, some (p + 1)⟩
  | none =>
    match t.minor with
    | some m => ⟨t.major, some (m + 1), none⟩
    | none => ⟨t.major + 1, none, none⟩

/-- Source `VersionTriple.bump_compatible`: raises when `minor` is unset;
when `patch` is unset it increments `major` (keeping `minor`), otherwise
it increments `minor` (keeping `patch`). -/
def bump_compatible (t : VersionTriple) : Except Unit VersionTriple :=
  match t.minor with
  | none => .error ()
  | some m =>
    match t.patch with
    | none => .ok ⟨t.major + 1, some m, none⟩
    | some p => .ok ⟨t.major, some (m + 1), some p⟩

/-- Source `VersionTriple.compare`: lexicographic difference of the
components, with an unset `minor`/`patch` read as `0` (Python
`self.minor or 0`). -/
def compare (a b : VersionTriple) : Int :=
  if a.major - b.major ≠ 0 then a.major - b.major
  else if a.minor.getD 0 - b.minor.getD 0 ≠ 0 then a.minor.getD 0 - b.minor.getD 0
  else a.patch.getD 0 - b.patch.getD 0

end VersionTriple

/-- Splits a character list on a separator character; mirrors Python
`str.split`. -/
def splitOnChar (sep : Char) : List Char → List (List Char)
  | [] => [[]]
  | c :: rest =>
    match splitOnChar sep rest with
    | [] => [[c]]
    | seg :: segs =>
      if c = sep then [] :: seg :: segs else (c :: seg) :: segs

/-- A dot-separated segment counts as a numeric release component when it
is non-empty and all digits. -/
def isNumericSeg (seg : List Char) : Bool :=
  !seg.isEmpty && seg.all (·.isDigit)

/-- Decimal value of a digit segment. -/
def digitsToInt (seg : List Char) : Int :=
  seg.foldl (fun acc c => acc * 10 + ((c.toNat : Int) - ('0'.toNat : Int))) 0

/-- Models the third-party `packaging.version.parse(s).release`: the
leading dot-separated numeric components of the version string, with any
trailing pre/post/dev/local qualifier segments dropped.  Returns `none`
(the library raises `InvalidVersion`) when the string has no leading
numeric component.  The model treats qualifiers as separate dot segments
(enough for every string exercised here); it does not reject every string
the library rejects. -/
def releaseOf (cs : List Char) : Option (List Int) :=
  let segs := splitOnChar '.' cs
  let nums := (segs.takeWhile isNumericSeg).map digitsToInt
  if nums.isEmpty then none else some nums

/-- The wildcard-handling line of source `VersionTriple.parse`: when `s`
ends with `".*"` the code executes `s = s[-len(".*")]`, which replaces
`s` with its single character at index `-2` (an indexing, not a slice),
so the result is always the one-character string `"."`. -/
def strip_wildcard (cs : List Char) : List Char :=
  if cs.reverse.take 2 = ['*', '.'] then [cs.getD (cs.length - 2) ' '] else cs

/-- Source `VersionTriple.parse`: the wildcard-handling line, then the
release components are passed positionally to the `VersionTriple`
constructor: more than three components raise (`TypeError`), as does a
triple with `patch` set but `minor` unset (the dataclass `__post_init__`
assertion, unreachable from release lists). -/
def VersionTriple.parse (s : String) : Except Unit VersionTriple :=
  let cs := strip_wildcard s.data
  match releaseOf cs with
  | none => .error ()
  | some [a] => .ok ⟨a, none, none⟩
  | some [a, b] => .ok ⟨a, some b, none⟩
  | some [a, b, c] => .ok ⟨a, some b, some c⟩
  | some _ => .error ()

/-- The data `VersionTriple.compare` actually reads: major, and
minor/patch with unset fields defaulted to `0`. -/
def VersionTriple.key (t : VersionTriple) : Int × Int × Int :=
  (t.major, t.minor.getD 0, t.patch.getD 0)

/-- Source dataclass `LowerBound`: an inclusive lower version bound,
`none` meaning unbounded below. -/
structure LowerBound where
  version : Option VersionTriple
deriving DecidableEq, Repr

/-- Source dataclass `UpperBound`: an exclusive upper version bound,
`none` meaning unbounded above. -/
structure UpperBound where
  version : Option VersionTriple
deriving DecidableEq, Repr

/-- Source `LowerBound.compare` in its `case LowerBound(version)` arm:
unbounded sorts before any bounded lower bound. -/
def LowerBound.compare (a b : LowerBound) : Int :=
  match a.version, b.version with
  | none, none => 0
  | none, some _ => -1
  | some _, none => 1
  | some x, some y => x.compare y

/-- Source `LowerBound.compare` in its `case UpperBound(version)` arm:
`-1` when either side is unbounded, else the triple comparison. -/
def LowerBound.compare_upper (a : LowerBound) (b : UpperBound) : Int :=
  match a.version, b.version with
  | none, _ => -1
  | _, none => -1
  | some x, some y => x.compare y

/-- Source `UpperBound.compare` in its `case LowerBound(version)` arm:
`1` when either side is unbounded, else the triple comparison. -/
def UpperBound.compare_lower (a : UpperBound) (b : LowerBound) : Int :=
  match a.version, b.version with
  | none, _ => 1
  | _, none => 1
  | some x, some y => x.compare y

/-- Source `UpperBound.compare` in its `case UpperBound(version)` arm:
unbounded sorts after any bounded upper bound. -/
def UpperBound.compare (a b : UpperBound) : Int :=
  match a.version, b.version with
  | none, none => 0
  | none, some _ => 1
  | some _, none => -1
  | some x, some y => x.compare y

/-- Source `LowerBound.contains`: unbounded, or `version >= self.version`. -/
def LowerBound.contains (b : LowerBound) (v : VersionTriple) : Bool :=
  match b.version with
  | none => true
  | some x => decide (0 ≤ v.compare x)

/-- Source `UpperBound.contains`: unbounded, or `version < self.version`. -/
def UpperBound.contains (b : UpperBound) (v : VersionTriple) : Bool :=
  match b.version with
  | none => true
  | some x => decide (v.compare x < 0)

/-- Source `LowerBound.unbounded`. -/
def LowerBound.unbounded : LowerBound := ⟨none⟩

/-- Source `UpperBound.unbounded`. -/
def UpperBound.unbounded : UpperBound := ⟨none⟩

/-- Source dataclass `VersionSpan`: inclusive lower and exclusive upper
bound.  The constructor invariant lives in `VersionSpan.make`. -/
structure VersionSpan where
  lower : LowerBound
  upper : UpperBound
deriving DecidableEq, Repr

/-- Source `VersionSpan` construction including `__post_init__`: raises
when `self.upper <= self.lower` (the cross-kind bound comparison). -/
def VersionSpan.make (lower : LowerBound) (upper : UpperBound) : Except Unit VersionSpan :=
  if upper.compare_lower lower ≤ 0 then .error () else .ok ⟨lower, upper⟩

/-- Source `VersionSpan.unbounded`. -/
def VersionSpan.unbounded : VersionSpan := ⟨LowerBound.unbounded, UpperBound.unbounded⟩

/-- Source `VersionSpan.compare`: lower bounds first, then upper bounds. -/
def VersionSpan.compare (a b : VersionSpan) : Int :=
  if a.lower.compare b.lower ≠ 0 then a.lower.compare b.lower
  else a.upper.compare b.upper

/-- Source `VersionSpan.contains`: both bounds contain the version. -/
def VersionSpan.contains (s : VersionSpan) (v : VersionTriple) : Bool :=
  s.lower.contains v && s.upper.contains v

/-- Source dataclass `FixedVersion`: a raw version string, for `===`. -/
structure FixedVersion where
  version : String
deriving DecidableEq, Repr

/-- Source dataclass `DisjointVersionSpan`: an ordered tuple of spans
understood as their union. -/
structure DisjointVersionSpan where
  spans : List VersionSpan
deriving DecidableEq, Repr

/-- Source `DisjointVersionSpan.contains`: linear scan of the members. -/
def DisjointVersionSpan.contains (d : DisjointVersionSpan) (v : VersionTriple) : Bool :=
  d.spans.any (·.contains v)

/-- The payload alternatives of the source `VersionSet` union type
`VersionSpan | FixedVersion | DisjointVersionSpan`. -/
inductive VersionValue where
  | span : VersionSpan → VersionValue
  | fixed : FixedVersion → VersionValue
  | disjoint : DisjointVersionSpan → VersionValue
deriving DecidableEq, Repr

/-- Source dataclass `VersionSet`: an optional payload, `none` being the
empty set. -/
structure VersionSet where
  version : Option VersionValue
deriving DecidableEq, Repr

/-- Source `VersionSet.empty`. -/
def VersionSet.empty : VersionSet := ⟨none⟩

/-- Source `VersionSet.is_empty`. -/
def VersionSet.is_empty (s : VersionSet) : Bool := s.version.isNone

/-- Source `merge_spans`: new lower bound is the greater of the two
lower bounds, new upper bound the lesser of the two upper bounds; the
span is rebuilt (through the checked constructor) when `lower < upper`,
otherwise the merge is `None`. -/
def merge_spans (a b : VersionSpan) : Except Unit (Option VersionSpan) :=
  let lower := if a.lower.compare b.lower < 0 then b.lower else a.lower
  let upper := if a.upper.compare b.upper < 0 then a.upper else b.upper
  if lower.compare_upper upper < 0 then
    (VersionSpan.make lower upper).map some
  else
    .ok none

/-- The loop body of source `merge_span_with_disjoint`, recursing over
the members of the disjoint span. -/
def merge_span_with_disjoint_list (span : VersionSpan) : List VersionSpan → Except Unit VersionSet
  | [] => .ok VersionSet.empty
  | s :: rest => do
    match ← merge_spans span s with
    | some new_span => .ok ⟨some (.span new_span)⟩
    | none => merge_span_with_disjoint_list span rest

/-- Source `merge_span_with_disjoint`: returns the first non-empty merge
of `span` with a member of `spans`, else the empty set. -/
def merge_span_with_disjoint (span : VersionSpan) (spans : DisjointVersionSpan) :
    Except Unit VersionSet :=
  merge_span_with_disjoint_list span spans.spans

/-- Inner loop of source `merge_disjoint_spans`: merges of one left span
against every right span, in order. -/
def merge_with_all (l : VersionSpan) : List VersionSpan → Except Unit (List VersionSpan)
  | [] => .ok []
  | r :: rest => do
    let m ← merge_spans l r
    let ms ← merge_with_all l rest
    match m with
    | some s => .ok (s :: ms)
    | none => .ok ms

/-- Outer loop of source `merge_disjoint_spans`: all pairwise non-empty
merges, left-major order. -/
def merge_all_pairs : List VersionSpan → List VersionSpan → Except Unit (List VersionSpan)
  | [], _ => .ok []
  | l :: ls, rs => do
    let first ← merge_with_all l rs
    let rest ← merge_all_pairs ls rs
    .ok (first ++ rest)

/-- Source `merge_disjoint_spans`: collect all pairwise merges; a
non-empty list becomes a `DisjointVersionSpan`, else the empty set. -/
def merge_disjoint_spans (a b : DisjointVersionSpan) : Except Unit VersionSet := do
  let spans ← merge_all_pairs a.spans b.spans
  if spans.length > 0 then .ok ⟨some (.disjoint ⟨spans⟩)⟩ else .ok VersionSet.empty

/-- Source `VersionSet.__and__`: the intersection dispatch over the
tagged-union pair, case arms in source order.  `FixedVersion` operands
are triple-parsed (which can raise) when met by a span or union. -/
def VersionSet.and (a b : VersionSet) : Except Unit VersionSet :=
  match a.version, b.version with
  | none, _ => .ok a
  | _, none => .ok b
  | some (.fixed fa), some (.fixed fb) =>
    if fa.version = fb.version then .ok a else .ok ⟨none⟩
  | some (.fixed f), some (.span sp) => do
    let v ← VersionTriple.parse f.version
    if sp.contains v then .ok a else .ok VersionSet.empty
  | some (.span sp), some (.fixed f) => do
    let v ← VersionTriple.parse f.version
    if sp.contains v then .ok b else .ok VersionSet.empty
  | some (.fixed f), some (.disjoint d) => do
    let v ← VersionTriple.parse f.version
    if d.contains v then .ok a else .ok VersionSet.empty
  | some (.disjoint d), some (.fixed f) => do
    let v ← VersionTriple.parse f.version
    if d.contains v then .ok b else .ok VersionSet.empty
  | some (.span s1), some (.span s2) => do
    match ← merge_spans s1 s2 with
    | none => .ok VersionSet.empty
    | some sp => .ok ⟨some (.span sp)⟩
  | some (.span sp), some (.disjoint d) => merge_span_with_disjoint sp d
  | some (.disjoint d), some (.span sp) => merge_span_with_disjoint sp d
  | some (.disjoint da), some (.disjoint db) => merge_disjoint_spans da db

/-- Source `version_set`: translates one comparison operator plus a
version string into a `VersionSet`, spans built through the checked
constructor. -/
def version_set (op : VersionOp) (version : String) : Except Unit VersionSet :=
  match op with
  | .compatible => do
    let lower ← VersionTriple.parse version
    let upper ← lower.bump_compatible
    let span ← VersionSpan.make ⟨some lower⟩ ⟨some upper⟩
    .ok ⟨some (.span span)⟩
  | .matching => do
    let lower ← VersionTriple.parse version
    let span ← VersionSpan.make ⟨some lower⟩ ⟨some lower.bump⟩
    .ok ⟨some (.span span)⟩
  | .excluding => do
    let v ← VersionTriple.parse version
    let lower_span ← VersionSpan.make ⟨none⟩ ⟨some v⟩
    let upper_span ← VersionSpan.make ⟨some v.bump⟩ ⟨none⟩
    .ok ⟨some (.disjoint ⟨[lower_span, upper_span]⟩)⟩
  | .leq => do
    let v ← VersionTriple.parse version
    let span ← VersionSpan.make ⟨none⟩ ⟨some v.bump⟩
    .ok ⟨some (.span span)⟩
  | .geq => do
    let v ← VersionTriple.parse version
    let span ← VersionSpan.make ⟨some v⟩ ⟨none⟩
    .ok ⟨some (.span span)⟩
  | .lt => do
    let v ← VersionTriple.parse version
    let span ← VersionSpan.make ⟨none⟩ ⟨some v⟩
    .ok ⟨some (.span span)⟩
  | .gt => do
    let v ← VersionTriple.parse version
    let span ← VersionSpan.make ⟨some v.bump⟩ ⟨none⟩
    .ok ⟨some (.span span)⟩
  | .equal => .ok ⟨some (.fixed ⟨version⟩)⟩

/-- A specifier clause as iterated by `is_consistent`: the operator
string and the version string. -/
abbrev Specifier := String × String

/-- The loop of source `is_consistent`: folds the per-operator version
sets into the accumulator with the intersection. -/
def fold_joint (joint : VersionSet) : List Specifier → Except Unit VersionSet
  | [] => .ok joint
  | (opStr, ver) :: rest => do
    let op ← parse_version_op opStr
    let vspec ← version_set op ver
    let joint2 ← joint.and vspec
    fold_joint joint2 rest

/-- Source `is_consistent`: fold starting at the fully unbounded span,
then test non-emptiness. -/
def is_consistent (specs : List Specifier) : Except Unit Bool := do
  let joint ← fold_joint ⟨some (.span VersionSpan.unbounded)⟩ specs
  .ok (!joint.is_empty)

/-- True of the characters that may open an operator token. -/
def isOpChar (c : Char) : Bool :=
  c = '<' || c = '>' || c = '=' || c = '!' || c = '~'

/-- Models the third-party `packaging.requirements.Requirement` for the
plain clauses used here (a package name directly followed by zero or
more comma-separated operator/version specifiers, no extras, markers or
whitespace): the name is everything before the first operator character,
and each comma-separated piece of the remainder splits into its leading
operator characters and the version string. -/
def parse_requirement (s : String) : String × List Specifier :=
  let cs := s.data
  let name := cs.takeWhile (fun c => !isOpChar c)
  let rest := cs.dropWhile (fun c => !isOpChar c)
  if rest.isEmpty then (⟨name⟩, [])
  else
    (⟨name⟩, (splitOnChar ',' rest).map
      (fun seg => (⟨seg.takeWhile isOpChar⟩, ⟨seg.dropWhile isOpChar⟩)))

/-- A package-name grouping accumulator: insertion-ordered association
list from name to accumulated specifier clauses, mirroring the Python
dict of `SpecifierSet`s. -/
abbrev SpecGroups := List (String × List Specifier)

/-- One `specs[name] = old_specs & req.specifier` step of source
`check_validity`: dict update-or-append, with `SpecifierSet.__and__`
modelled as clause concatenation. -/
def add_spec : SpecGroups → String → List Specifier → SpecGroups
  | [], name, newSpecs => [(name, newSpecs)]
  | e :: rest, name, newSpecs =>
    if e.1 = name then (e.1, e.2 ++ newSpecs) :: rest
    else e :: add_spec rest name newSpecs

/-- The grouping loop of source `check_validity`: parse each requirement
string and fold its clauses into its name's group. -/
def group_specs (ps : List String) : SpecGroups :=
  ps.foldl (fun acc p => let r := parse_requirement p; add_spec acc r.1 r.2) []

/-- The reporting loop of source `check_validity`: every group whose
specifier set is not consistent, in group order. -/
def collect_broken : SpecGroups → Except Unit SpecGroups
  | [] => .ok []
  | (n, g) :: rest => do
    let c ← is_consistent g
    let r ← collect_broken rest
    .ok (if c then r else (n, g) :: r)

/-- The `broken` list computed by source `check_validity` just before it
decides whether to raise. -/
def check_validity_broken (ps : List String) : Except Unit SpecGroups :=
  collect_broken (group_specs ps)

/-- Source `check_validity`: raises when the broken list is non-empty. -/
def check_validity (ps : List String) : Except Unit Unit := do
  let broken ← check_validity_broken ps
  if broken.length > 0 then .error () else .ok ()

/-- Observation helper: the specifier clauses grouped under a package
name (the value of `specs[name]` in source `check_validity`). -/
def lookup_group (l : SpecGroups) (n : String) : Option (List Specifier) :=
  (l.find? (fun e => decide (e.1 = n))).map (·.2)

/-- Observation helper: the concatenation, in input order, of the
specifier clauses of every requirement whose name is `n`. -/
def specs_for (n : String) (ps : List String) : List Specifier :=
  ps.foldr (fun p acc =>
    if (parse_requirement p).1 = n then (parse_requirement p).2 ++ acc else acc) []

theorem VersionTriple.compare_refl (a : VersionTriple) : a.compare a = 0 := by
  unfold VersionTriple.compare
  split_ifs <;> omega

theorem VersionTriple.compare_antisym (a b : VersionTriple) :
    a.compare b = -(b.compare a) := by
  unfold VersionTriple.compare
  split_ifs <;> omega

theorem VersionTriple.key_eq_of_compare (a b : VersionTriple) (h : a.compare b = 0) :
    a.key = b.key := by
  unfold VersionTriple.compare at h
  simp only [VersionTriple.key, Prod.ext_iff]
  split_ifs at h <;> omega

theorem VersionTriple.compare_congr_left (a b c : VersionTriple) (h : a.key = b.key) :
    a.compare c = b.compare c := by
  simp only [VersionTriple.key, Prod.ext_iff] at h
  simp only [VersionTriple.compare, h.1, h.2.1, h.2.2]

theorem VersionTriple.compare_congr_right (a b c : VersionTriple) (h : b.key = c.key) :
    a.compare b = a.compare c := by
  simp only [VersionTriple.key, Prod.ext_iff] at h
  simp only [VersionTriple.compare, h.1, h.2.1, h.2.2]

theorem VersionTriple.bump_compare_pos (t : VersionTriple) : 0 < t.bump.compare t := by
  rcases t with ⟨ma, mi, pa⟩
  rcases pa with _ | p <;> rcases mi with _ | m <;>
    simp only [VersionTriple.bump, VersionTriple.compare, Option.getD] <;>
    split_ifs <;> omega

theorem VersionTriple.bump_compatible_compare_pos (t u : VersionTriple)
    (h : t.bump_compatible = .ok u) : 0 < u.compare t := by
  rcases t with ⟨ma, mi, pa⟩
  rcases mi with _ | m
  · exact absurd h (by simp [VersionTriple.bump_compatible])
  · rcases pa with _ | p <;>
      simp only [VersionTriple.bump_compatible, Except.ok.injEq] at h <;>
      subst h <;>
      simp only [VersionTriple.compare, Option.getD] <;>
      split_ifs <;> omega

theorem LowerBound.lower_compare_self (a : LowerBound) : a.compare a = 0 := by
  rcases a with ⟨_ | x⟩
  · rfl
  · exact VersionTriple.compare_refl x

theorem LowerBound.lower_compare_swap (a b : LowerBound) :
    a.compare b = -(b.compare a) := by
  rcases a with ⟨_ | x⟩ <;> rcases b with ⟨_ | y⟩ <;>
    simp only [LowerBound.compare] <;> try decide
  exact VersionTriple.compare_antisym x y

theorem UpperBound.upper_compare_self (a : UpperBound) : a.compare a = 0 := by
  rcases a with ⟨_ | x⟩
  · rfl
  · exact VersionTriple.compare_refl x

theorem UpperBound.upper_compare_swap (a b : UpperBound) :
    a.compare b = -(b.compare a) := by
  rcases a with ⟨_ | x⟩ <;> rcases b with ⟨_ | y⟩ <;>
    simp only [UpperBound.compare] <;> try decide
  exact VersionTriple.compare_antisym x y

/-- The strict `lower < upper` test of `merge_spans` and the
`upper <= lower` test of the span constructor are complementary. -/
theorem lower_lt_upper_iff (l : LowerBound) (u : UpperBound) :
    l.compare_upper u < 0 ↔ 0 < u.compare_lower l := by
  rcases l with ⟨_ | x⟩ <;> rcases u with ⟨_ | y⟩ <;>
    simp only [LowerBound.compare_upper, UpperBound.compare_lower] <;>
    try omega
  rw [VersionTriple.compare_antisym x y]
  omega

theorem VersionSpan.make_of_lt {l : LowerBound} {u : UpperBound}
    (h : l.compare_upper u < 0) : VersionSpan.make l u = .ok ⟨l, u⟩ := by
  rw [VersionSpan.make, if_neg]
  have := (lower_lt_upper_iff l u).mp h
  omega

/-- `merge_spans` never raises: when the merged bounds pass the strict
overlap test they also pass the constructor check. -/
theorem merge_spans_ok (a b : VersionSpan) : ∃ r, merge_spans a b = .ok r := by
  unfold merge_spans
  by_cases hc :
      (if a.lower.compare b.lower < 0 then b.lower else a.lower).compare_upper
        (if a.upper.compare b.upper < 0 then a.upper else b.upper) < 0
  · rw [if_pos hc, VersionSpan.make_of_lt hc]
    exact ⟨_, rfl⟩
  · rw [if_neg hc]
    exact ⟨none, rfl⟩

/-- Replacing both sides of the strict overlap test by compare-equal
bounds does not change its outcome. -/
theorem lb_lt_ub_congr (l l' : LowerBound) (u u' : UpperBound)
    (hl : l.compare l' = 0) (hu : u.compare u' = 0) :
    (l.compare_upper u < 0 ↔ l'.compare_upper u' < 0) := by
  rcases l with ⟨_ | x⟩ <;> rcases l' with ⟨_ | x'⟩ <;>
    rcases u with ⟨_ | y⟩ <;> rcases u' with ⟨_ | y'⟩ <;>
    simp only [LowerBound.compare, UpperBound.compare,
      LowerBound.compare_upper] at hl hu ⊢ <;> try omega
  rw [VersionTriple.compare_congr_left x x' y (VersionTriple.key_eq_of_compare x x' hl),
    VersionTriple.compare_congr_right x' y y' (VersionTriple.key_eq_of_compare y y' hu)]

/-- The lower bound chosen by `merge_spans a b` compares equal to the one
chosen by `merge_spans b a` (they can differ structurally on a tie). -/
theorem merge_lower_compare (a b : VersionSpan) :
    (if a.lower.compare b.lower < 0 then b.lower else a.lower).compare
      (if b.lower.compare a.lower < 0 then a.lower else b.lower) = 0 := by
  have h := LowerBound.lower_compare_swap a.lower b.lower
  rcases lt_trichotomy (a.lower.compare b.lower) 0 with hc | hc | hc
  · rw [if_pos hc, if_neg (by omega)]
    exact LowerBound.lower_compare_self _
  · rw [if_neg (by omega), if_neg (by omega)]
    exact hc
  · rw [if_neg (by omega), if_pos (by omega)]
    exact LowerBound.lower_compare_self _

/-- The upper bound chosen by `merge_spans a b` compares equal to the one
chosen by `merge_spans b a`. -/
theorem merge_upper_compare (a b : VersionSpan) :
    (if a.upper.compare b.upper < 0 then a.upper else b.upper).compare
      (if b.upper.compare a.upper < 0 then b.upper else a.upper) = 0 := by
  have h := UpperBound.upper_compare_swap a.upper b.upper
  rcases lt_trichotomy (a.upper.compare b.upper) 0 with hc | hc | hc
  · rw [if_pos hc, if_neg (by omega)]
    exact UpperBound.upper_compare_self _
  · rw [if_neg (by omega), if_neg (by omega)]
    rw [UpperBound.upper_compare_swap]
    omega
  · rw [if_neg (by omega), if_pos (by omega)]
    exact UpperBound.upper_compare_self _

/-- Claim C3, counterexample: for the constructible non-empty spans
`[1, +inf)` and `[1.0.0, +inf)`, whose lower bounds compare equal but
differ structurally, `merge_spans` is not commutative as stated: each
orientation keeps its own first argument's lower bound, so the two
results are different values. -/
theorem merge_spans_comm_counterexample :
    VersionSpan.make ⟨some ⟨1, none, none⟩⟩ ⟨none⟩ =
      .ok ⟨⟨some ⟨1, none, none⟩⟩, ⟨none⟩⟩ ∧
    VersionSpan.make ⟨some ⟨1, some 0, some 0⟩⟩ ⟨none⟩ =
      .ok ⟨⟨some ⟨1, some 0, some 0⟩⟩, ⟨none⟩⟩ ∧
    merge_spans ⟨⟨some ⟨1, none, none⟩⟩, ⟨none⟩⟩ ⟨⟨some ⟨1, some 0, some 0⟩⟩, ⟨none⟩⟩ ≠
      merge_spans ⟨⟨some ⟨1, some 0, some 0⟩⟩, ⟨none⟩⟩ ⟨⟨some ⟨1, none, none⟩⟩, ⟨none⟩⟩ := by
  decide

/-- Claim C3 (amended): for every pair of spans `a`, `b`, `merge_spans`
never raises, `merge_spans a b` and `merge_spans b a` return `None` in
the same cases, and when both return spans the two results compare equal
under `VersionSpan.compare` — they need not be structurally equal, since
on a tie each orientation keeps its own first argument's bound. -/
theorem merge_spans_comm (a b : VersionSpan) :
    (∃ r, merge_spans a b = .ok r) ∧
    (merge_spans a b = .ok none ↔ merge_spans b a = .ok none) ∧
    (∀ s t, merge_spans a b = .ok (some s) → merge_spans b a = .ok (some t) →
      s.compare t = 0) := by
  refine ⟨merge_spans_ok a b, ?_⟩
  have hl := merge_lower_compare a b
  have hu := merge_upper_compare a b
  have hlt := lb_lt_ub_congr _ _ _ _ hl hu
  unfold merge_spans
  by_cases hc :
      (if a.lower.compare b.lower < 0 then b.lower else a.lower).compare_upper
        (if a.upper.compare b.upper < 0 then a.upper else b.upper) < 0
  · have hc' :
        (if b.lower.compare a.lower < 0 then a.lower else b.lower).compare_upper
          (if b.upper.compare a.upper < 0 then b.upper else a.upper) < 0 := hlt.mp hc
    rw [if_pos hc, if_pos hc', VersionSpan.make_of_lt hc, VersionSpan.make_of_lt hc']
    constructor
    · simp [Except.map]
    · intro s t hs ht
      simp only [Except.map, Except.ok.injEq, Option.some.injEq] at hs ht
      subst hs
      subst ht
      rw [VersionSpan.compare, if_neg (by simpa using hl)]
      exact hu
  · have hc' :
        ¬ (if b.lower.compare a.lower < 0 then a.lower else b.lower).compare_upper
          (if b.upper.compare a.upper < 0 then b.upper else a.upper) < 0 :=
      fun h => hc (hlt.mpr h)
    rw [if_neg hc, if_neg hc']
    constructor
    · simp
    · intro s t hs
      cases hs

/-- Claim C3, witness: the two merge results of `[1, +inf)` and
`[1.0.0, +inf)` compare equal. -/
theorem merge_spans_comm_witness :
    VersionSpan.compare ⟨⟨some ⟨1, none, none⟩⟩, ⟨none⟩⟩
      ⟨⟨some ⟨1, some 0, some 0⟩⟩, ⟨none⟩⟩ = 0 :=
  (merge_spans_comm ⟨⟨some ⟨1, none, none⟩⟩, ⟨none⟩⟩
      ⟨⟨some ⟨1, some 0, some 0⟩⟩, ⟨none⟩⟩).2.2 _ _ (by decide) (by decide)

/-- Claim C5: constructing a `VersionSpan` raises exactly when the upper
bound compares less-than-or-equal to the lower bound under the
cross-kind bound comparison; in particular construction with equal
bounded endpoints raises, and construction with both bounds unbounded
succeeds, so no empty or degenerate span ever comes out of the
constructor. -/
theorem version_span_construction (l : LowerBound) (u : UpperBound) :
    (VersionSpan.make l u = .error () ↔ u.compare_lower l ≤ 0) ∧
    (∀ v : VersionTriple, VersionSpan.make ⟨some v⟩ ⟨some v⟩ = .error ()) ∧
    VersionSpan.make LowerBound.unbounded UpperBound.unbounded = .ok VersionSpan.unbounded := by
  refine ⟨?_, ?_, by decide⟩
  · unfold VersionSpan.make
    split_ifs with h <;> simp [h]
  · intro v
    rw [VersionSpan.make, if_pos]
    simp only [UpperBound.compare_lower, VersionTriple.compare_refl]
    omega

/-- Claim C6: for every triple `T`, `bump T` compares strictly greater
than `T`, the half-open span `[T, bump T)` is constructible, contains
`T`, and does not contain `bump T`. -/
theorem bump_gt_and_span_contains (T : VersionTriple) :
    0 < T.bump.compare T ∧
    VersionSpan.make ⟨some T⟩ ⟨some T.bump⟩ = .ok ⟨⟨some T⟩, ⟨some T.bump⟩⟩ ∧
    VersionSpan.contains ⟨⟨some T⟩, ⟨some T.bump⟩⟩ T = true ∧
    VersionSpan.contains ⟨⟨some T⟩, ⟨some T.bump⟩⟩ T.bump = false := by
  have hb := VersionTriple.bump_compare_pos T
  refine ⟨hb, ?_, ?_, ?_⟩
  · apply VersionSpan.make_of_lt
    simp only [LowerBound.compare_upper]
    rw [VersionTriple.compare_antisym]
    omega
  · simp only [VersionSpan.contains, LowerBound.contains, UpperBound.contains,
      Bool.and_eq_true, decide_eq_true_eq]
    exact ⟨by rw [VersionTriple.compare_refl], by rw [VersionTriple.compare_antisym]; omega⟩
  · simp only [VersionSpan.contains, UpperBound.contains, VersionTriple.compare_refl,
      decide_eq_true_eq, Bool.and_eq_false_iff, decide_eq_false_iff_not]
    right
    omega

/-- Claim C1, evaluation at the failing input: `bump_compatible` on the
triple `(1,4,2)` keeps the patch component instead of clearing it, so
`version_set(~=, "1.4.2")` is the span `[1.4.2, 1.5.2)` — which still
contains `1.5.0` and `1.5.1` — and not the claimed `[1.4.2, 1.5.0)`. -/
theorem bump_compatible_keeps_patch :
    VersionTriple.bump_compatible ⟨1, some 4, some 2⟩ = .ok ⟨1, some 5, some 2⟩ ∧
    version_set .compatible "1.4.2" =
      .ok ⟨some (.span ⟨⟨some ⟨1, some 4, some 2⟩⟩, ⟨some ⟨1, some 5, some 2⟩⟩⟩)⟩ ∧
    VersionSpan.contains ⟨⟨some ⟨1, some 4, some 2⟩⟩, ⟨some ⟨1, some 5, some 2⟩⟩⟩
      ⟨1, some 5, some 0⟩ = true ∧
    VersionSpan.contains ⟨⟨some ⟨1, some 4, some 2⟩⟩, ⟨some ⟨1, some 5, some 2⟩⟩⟩
      ⟨1, some 5, some 1⟩ = true := by
  decide

/-- Claim C2, evaluation at the failing input: on `"1.0.*"` the
wildcard-handling line of `parse` yields the one-character string `"."`
(it indexes `s[-2]` instead of slicing the suffix off), so parsing
raises instead of producing the triple `(1, 0)` that parsing the
stripped string `"1.0"` would give. -/
theorem parse_wildcard_indexing_bug :
    strip_wildcard "1.0.*".data = ['.'] ∧
    VersionTriple.parse "1.0.*" = .error () ∧
    VersionTriple.parse "1.0" = .ok ⟨1, some 0, none⟩ := by
  decide

/-- Claim C9: intersecting two `FixedVersion` sets keeps the left fixed
version when the raw strings are equal and yields the empty set
otherwise; in particular `Fixed "1.0"` against `Fixed "1.0.0"` is empty
even though the two strings parse to triples that compare equal. -/
theorem except_bind_ok {α β : Type} (a : α) (f : α → Except Unit β) :
    (Except.ok a >>= f) = f a := rfl

/-- When every member of the list merges emptily with `span`, the scan
returns the empty set. -/
theorem merge_span_with_disjoint_list_all_none (sp : VersionSpan) (l : List VersionSpan)
    (h : ∀ m ∈ l, merge_spans sp m = .ok none) :
    merge_span_with_disjoint_list sp l = .ok VersionSet.empty := by
  induction l with
  | nil => rfl
  | cons s rest ih =>
    rw [merge_span_with_disjoint_list, h s (by simp), except_bind_ok]
    exact ih fun m hm => h m (by simp [hm])

/-- The scan returns the merge with the first member whose merge is
non-empty, ignoring everything after it. -/
theorem merge_span_with_disjoint_list_first (sp m ms : VersionSpan) (l1 l2 : List VersionSpan)
    (h1 : ∀ x ∈ l1, merge_spans sp x = .ok none)
    (hm : merge_spans sp m = .ok (some ms)) :
    merge_span_with_disjoint_list sp (l1 ++ m :: l2) = .ok ⟨some (.span ms)⟩ := by
  induction l1 with
  | nil =>
    rw [List.nil_append, merge_span_with_disjoint_list, hm, except_bind_ok]
  | cons s rest ih =>
    rw [List.cons_append, merge_span_with_disjoint_list, h1 s (by simp), except_bind_ok]
    exact ih fun x hx => h1 x (by simp [hx])

theorem fixed_and_fixed (a b : FixedVersion) :
    (VersionSet.and ⟨some (.fixed a)⟩ ⟨some (.fixed b)⟩ =
      if a.version = b.version then .ok ⟨some (.fixed a)⟩ else .ok ⟨none⟩) ∧
    VersionSet.and ⟨some (.fixed ⟨"1.0"⟩)⟩ ⟨some (.fixed ⟨"1.0.0"⟩)⟩ = .ok VersionSet.empty ∧
    (∃ t1 t2, VersionTriple.parse "1.0" = .ok t1 ∧ VersionTriple.parse "1.0.0" = .ok t2 ∧
      t1.compare t2 = 0) := by
  refine ⟨rfl, by decide, ⟨1, some 0, none⟩, ⟨1, some 0, some 0⟩, by decide, by decide, by decide⟩

/-- Claim C4, counterexample: intersecting the span `[1, 3)` with the
one-member union `{[2, 5)}` returns the merge `[2, 3)`, not the member
`[2, 5)` wrapped as a span, so the intersection does not return "the
first member whose merge is non-empty". -/
theorem and_span_disjoint_counterexample :
    VersionSet.and ⟨some (.span ⟨⟨some ⟨1, none, none⟩⟩, ⟨some ⟨3, none, none⟩⟩⟩)⟩
        ⟨some (.disjoint ⟨[⟨⟨some ⟨2, none, none⟩⟩, ⟨some ⟨5, none, none⟩⟩⟩]⟩)⟩ =
      .ok ⟨some (.span ⟨⟨some ⟨2, none, none⟩⟩, ⟨some ⟨3, none, none⟩⟩⟩)⟩ ∧
    VersionSet.and ⟨some (.span ⟨⟨some ⟨1, none, none⟩⟩, ⟨some ⟨3, none, none⟩⟩⟩)⟩
        ⟨some (.disjoint ⟨[⟨⟨some ⟨2, none, none⟩⟩, ⟨some ⟨5, none, none⟩⟩⟩]⟩)⟩ ≠
      .ok ⟨some (.span ⟨⟨some ⟨2, none, none⟩⟩, ⟨some ⟨5, none, none⟩⟩⟩)⟩ := by
  decide

/-- Claim C4 (amended): in either operand order, intersecting a span
with a disjoint union scans the members in order and returns the
*merge* of the span with the first member whose merge is non-empty
(not that member itself), wrapped as a single span; when every member
merges emptily the result is the empty set.  At most the one first
overlapping member contributes. -/
theorem and_span_disjoint_first_merge (sp : VersionSpan) (d : DisjointVersionSpan) :
    VersionSet.and ⟨some (.span sp)⟩ ⟨some (.disjoint d)⟩ = merge_span_with_disjoint sp d ∧
    VersionSet.and ⟨some (.disjoint d)⟩ ⟨some (.span sp)⟩ = merge_span_with_disjoint sp d ∧
    ((∀ m ∈ d.spans, merge_spans sp m = .ok none) →
      merge_span_with_disjoint sp d = .ok VersionSet.empty) ∧
    (∀ l1 m l2 ms, d.spans = l1 ++ m :: l2 →
      (∀ x ∈ l1, merge_spans sp x = .ok none) →
      merge_spans sp m = .ok (some ms) →
      merge_span_with_disjoint sp d = .ok ⟨some (.span ms)⟩) := by
  refine ⟨rfl, rfl, ?_, ?_⟩
  · exact merge_span_with_disjoint_list_all_none sp d.spans
  · intro l1 m l2 ms hd h1 hm
    rw [merge_span_with_disjoint, hd]
    exact merge_span_with_disjoint_list_first sp m ms l1 l2 h1 hm

/-- Claim C4, witness: the amended first-overlap rule evaluated on the
span `[1, 3)` and the one-member union `{[2, 5)}`. -/
theorem and_span_disjoint_first_merge_witness :
    merge_span_with_disjoint ⟨⟨some ⟨1, none, none⟩⟩, ⟨some ⟨3, none, none⟩⟩⟩
        ⟨[⟨⟨some ⟨2, none, none⟩⟩, ⟨some ⟨5, none, none⟩⟩⟩]⟩ =
      .ok ⟨some (.span ⟨⟨some ⟨2, none, none⟩⟩, ⟨some ⟨3, none, none⟩⟩⟩)⟩ :=
  (and_span_disjoint_first_merge ⟨⟨some ⟨1, none, none⟩⟩, ⟨some ⟨3, none, none⟩⟩⟩
      ⟨[⟨⟨some ⟨2, none, none⟩⟩, ⟨some ⟨5, none, none⟩⟩⟩]⟩).2.2.2
    [] _ [] _ rfl (by simp) (by decide)

/-- A span with an unbounded lower bound always passes the constructor
check. -/
theorem VersionSpan.make_unbounded_lower (u : UpperBound) :
    VersionSpan.make ⟨none⟩ u = .ok ⟨⟨none⟩, u⟩ := by
  rw [VersionSpan.make, if_neg]
  rcases u with ⟨_ | y⟩ <;> simp [UpperBound.compare_lower]

/-- A span with an unbounded upper bound always passes the constructor
check. -/
theorem VersionSpan.make_unbounded_upper (l : LowerBound) :
    VersionSpan.make l ⟨none⟩ = .ok ⟨l, ⟨none⟩⟩ := by
  rw [VersionSpan.make, if_neg]
  simp [UpperBound.compare_lower]

/-- A bounded span whose endpoints compare strictly passes the
constructor check. -/
theorem VersionSpan.make_bounded (t u : VersionTriple) (h : 0 < u.compare t) :
    VersionSpan.make ⟨some t⟩ ⟨some u⟩ = .ok ⟨⟨some t⟩, ⟨some u⟩⟩ := by
  apply VersionSpan.make_of_lt
  simp only [LowerBound.compare_upper]
  rw [VersionTriple.compare_antisym]
  omega

/-- Claim C10: for every supported operator and version string the
parser accepts — with the minor component present when the operator is
`~=` — `version_set` returns without raising and its result is not the
empty set: every internally constructed span passes the `upper > lower`
constructor check. -/
theorem version_set_total_nonempty (op : VersionOp) (v : String) (t : VersionTriple)
    (hp : VersionTriple.parse v = .ok t)
    (hm : op = VersionOp.compatible → t.minor.isSome) :
    ∃ vs, version_set op v = .ok vs ∧ vs.is_empty = false := by
  cases op with
  | compatible =>
    obtain ⟨mi, hmi⟩ := Option.isSome_iff_exists.mp (hm rfl)
    obtain ⟨u, hu⟩ : ∃ u, t.bump_compatible = .ok u := by
      rcases t with ⟨ma, mi', pa⟩
      simp only at hmi
      subst hmi
      cases pa <;> exact ⟨_, rfl⟩
    have hgt := VersionTriple.bump_compatible_compare_pos t u hu
    simp only [version_set]
    rw [hp, except_bind_ok, hu, except_bind_ok, VersionSpan.make_bounded t u hgt,
      except_bind_ok]
    exact ⟨_, rfl, rfl⟩
  | matching =>
    simp only [version_set]
    rw [hp, except_bind_ok,
      VersionSpan.make_bounded t t.bump (VersionTriple.bump_compare_pos t), except_bind_ok]
    exact ⟨_, rfl, rfl⟩
  | excluding =>
    simp only [version_set]
    rw [hp, except_bind_ok, VersionSpan.make_unbounded_lower ⟨some t⟩, except_bind_ok,
      VersionSpan.make_unbounded_upper ⟨some t.bump⟩, except_bind_ok]
    exact ⟨_, rfl, rfl⟩
  | leq =>
    simp only [version_set]
    rw [hp, except_bind_ok, VersionSpan.make_unbounded_lower ⟨some t.bump⟩, except_bind_ok]
    exact ⟨_, rfl, rfl⟩
  | geq =>
    simp only [version_set]
    rw [hp, except_bind_ok, VersionSpan.make_unbounded_upper ⟨some t⟩, except_bind_ok]
    exact ⟨_, rfl, rfl⟩
  | lt =>
    simp only [version_set]
    rw [hp, except_bind_ok, VersionSpan.make_unbounded_lower ⟨some t⟩, except_bind_ok]
    exact ⟨_, rfl, rfl⟩
  | gt =>
    simp only [version_set]
    rw [hp, except_bind_ok, VersionSpan.make_unbounded_upper ⟨some t.bump⟩, except_bind_ok]
    exact ⟨_, rfl, rfl⟩
  | equal => exact ⟨_, rfl, rfl⟩

/-- Claim C10, witness: the safety statement evaluated at the operator
`==` and the version string `"1.4.2"`. -/
theorem version_set_total_nonempty_witness :
    ∃ vs, version_set .matching "1.4.2" = .ok vs ∧ vs.is_empty = false :=
  version_set_total_nonempty .matching "1.4.2" ⟨1, some 4, some 2⟩ (by decide)
    fun h => VersionOp.noConfusion h

/-- Claim C7: the list with the clauses `numpy==1.0.post1` and
`numpy==1.1.1` is reported inconsistent.  The first version parses to
the triple `(1,0)` (post qualifier dropped) and `==` gives the span
`[1.0, 1.1)`; the second parses to `(1,1,1)` giving `[1.1.1, 1.1.2)`;
their merge is empty because the patch-less bound `1.1` is compared as
`1.1.0`, which is below `1.1.1`. -/
theorem numpy_clause_pair_inconsistent :
    VersionTriple.parse "1.0.post1" = .ok ⟨1, some 0, none⟩ ∧
    version_set .matching "1.0.post1" =
      .ok ⟨some (.span ⟨⟨some ⟨1, some 0, none⟩⟩, ⟨some ⟨1, some 1, none⟩⟩⟩)⟩ ∧
    VersionTriple.parse "1.1.1" = .ok ⟨1, some 1, some 1⟩ ∧
    version_set .matching "1.1.1" =
      .ok ⟨some (.span ⟨⟨some ⟨1, some 1, some 1⟩⟩, ⟨some ⟨1, some 1, some 2⟩⟩⟩)⟩ ∧
    merge_spans ⟨⟨some ⟨1, some 0, none⟩⟩, ⟨some ⟨1, some 1, none⟩⟩⟩
      ⟨⟨some ⟨1, some 1, some 1⟩⟩, ⟨some ⟨1, some 1, some 2⟩⟩⟩ = .ok none ∧
    VersionTriple.compare ⟨1, some 1, none⟩ ⟨1, some 1, some 0⟩ = 0 ∧
    0 < VersionTriple.compare ⟨1, some 1, some 1⟩ ⟨1, some 1, none⟩ ∧
    check_validity_broken ["numpy==1.0.post1", "numpy==1.1.1"] =
      .ok [("numpy", [("==", "1.0.post1"), ("==", "1.1.1")])] ∧
    check_validity ["numpy==1.0.post1", "numpy==1.1.1"] = .error () := by
  decide

theorem except_bind_error {α β : Type} (e : Unit) (f : α → Except Unit β) :
    ((Except.error e : Except Unit α) >>= f) = .error e := rfl

/-- The broken list assembled by `collect_broken` is exactly the
sublist of inconsistent groups, in order. -/
theorem collect_broken_eq_filter (l : SpecGroups) (b : SpecGroups)
    (h : collect_broken l = .ok b) :
    b = l.filter (fun e => match is_consistent e.2 with | .ok false => true | _ => false) := by
  induction l generalizing b with
  | nil =>
    rw [collect_broken] at h
    injection h with h
    rw [← h]
    rfl
  | cons e rest ih =>
    obtain ⟨n, g⟩ := e
    rw [collect_broken] at h
    cases hc : is_consistent g with
    | error u => rw [hc, except_bind_error] at h; cases h
    | ok c =>
      rw [hc, except_bind_ok] at h
      cases hr : collect_broken rest with
      | error u => rw [hr, except_bind_error] at h; cases h
      | ok r =>
        rw [hr, except_bind_ok] at h
        injection h with h
        rw [← h, ih r hr]
        cases c <;> simp [List.filter_cons, hc]

/-- `add_spec` updates exactly the named group, appending the new
clauses to an existing group or creating a fresh one at the end. -/
theorem lookup_add_spec (acc : SpecGroups) (n m : String) (sp : List Specifier) :
    lookup_group (add_spec acc n sp) m =
      if m = n then
        match lookup_group acc m with
        | some g => some (g ++ sp)
        | none => some sp
      else lookup_group acc m := by
  induction acc with
  | nil =>
    by_cases h : m = n
    · subst h
      simp [add_spec, lookup_group, List.find?]
    · rw [if_neg h]
      simp only [add_spec, lookup_group, List.find?, decide_eq_false (Ne.symm h)]
  | cons e rest ih =>
    obtain ⟨en, eg⟩ := e
    by_cases he : en = n
    · subst he
      rw [add_spec, if_pos rfl]
      by_cases hm : m = en
      · subst hm
        simp [lookup_group, List.find?]
      · rw [if_neg hm]
        simp only [lookup_group, List.find?, decide_eq_false (Ne.symm hm)]
    · rw [add_spec, if_neg he]
      by_cases hm : m = en
      · subst hm
        rw [if_neg (fun hh => he hh)]
        simp [lookup_group, List.find?]
      · have hL : lookup_group ((en, eg) :: add_spec rest n sp) m =
            lookup_group (add_spec rest n sp) m := by
          simp only [lookup_group, List.find?, decide_eq_false (Ne.symm hm)]
        have hR : lookup_group ((en, eg) :: rest) m = lookup_group rest m := by
          simp only [lookup_group, List.find?, decide_eq_false (Ne.symm hm)]
        rw [hL]
        simp only [hR]
        exact ih

/-- The grouping fold of `check_validity` collects, under each package
name, the concatenation of that name's specifier clauses in input
order. -/
theorem lookup_group_specs_fold (ps : List String) (acc : SpecGroups) (n : String) :
    lookup_group
        (ps.foldl (fun acc p => let r := parse_requirement p; add_spec acc r.1 r.2) acc) n =
      match lookup_group acc n with
      | some g => some (g ++ specs_for n ps)
      | none =>
        if ps.any (fun p => decide ((parse_requirement p).1 = n)) then some (specs_for n ps)
        else none := by
  induction ps generalizing acc with
  | nil =>
    cases h : lookup_group acc n <;> simp [h, specs_for]
  | cons p rest ih =>
    rw [List.foldl_cons]
    rw [ih (add_spec acc (parse_requirement p).1 (parse_requirement p).2)]
    rw [lookup_add_spec]
    by_cases hp : n = (parse_requirement p).1
    · rw [if_pos hp]
      have hs : specs_for n (p :: rest) = (parse_requirement p).2 ++ specs_for n rest := by
        rw [specs_for, List.foldr_cons, if_pos hp.symm]
        rfl
      have ha : (p :: rest).any (fun q => decide ((parse_requirement q).1 = n)) = true := by
        simp [List.any_cons, hp.symm]
      rw [hs, ha]
      cases h : lookup_group acc n <;> simp [List.append_assoc]
    · rw [if_neg hp]
      have hs : specs_for n (p :: rest) = specs_for n rest := by
        rw [specs_for, List.foldr_cons, if_neg (fun hh => hp hh.symm)]
        rfl
      have ha : (p :: rest).any (fun q => decide ((parse_requirement q).1 = n)) =
          rest.any (fun q => decide ((parse_requirement q).1 = n)) := by
        simp [List.any_cons, decide_eq_false (fun hh => hp (Eq.symm hh))]
      rw [hs, ha]

/-- Claim C8: `check_validity` groups requirement clauses by package
name (each group holding, in input order, the clauses of every
requirement with that name), `is_consistent` folds each group's
per-operator version sets starting from the fully unbounded span under
the intersection and flags a conflict exactly when the fold result is
empty, the checker succeeds exactly when the broken list is empty, and
the broken list contains every inconsistent `(name, group)` pair, not
just the first. -/
theorem check_validity_reports_all_conflicts (ps : List String) :
    (check_validity ps = .ok () ↔ check_validity_broken ps = .ok []) ∧
    (∀ b, check_validity_broken ps = .ok b →
      b = (group_specs ps).filter
        (fun e => match is_consistent e.2 with | .ok false => true | _ => false)) ∧
    (∀ n, lookup_group (group_specs ps) n =
      if ps.any (fun p => decide ((parse_requirement p).1 = n)) then some (specs_for n ps)
      else none) ∧
    (∀ g b, is_consistent g = .ok b →
      ∃ j, fold_joint ⟨some (.span VersionSpan.unbounded)⟩ g = .ok j ∧ b = !j.is_empty) := by
  refine ⟨?_, ?_, ?_, ?_⟩
  · constructor
    · intro h
      cases hb : check_validity_broken ps with
      | error u => rw [check_validity, hb, except_bind_error] at h; cases h
      | ok b =>
        rw [check_validity, hb, except_bind_ok] at h
        cases b with
        | nil => rfl
        | cons x xs => rw [if_pos (by simp)] at h; cases h
    · intro h
      rw [check_validity, h, except_bind_ok]
      rfl
  · intro b h
    exact collect_broken_eq_filter (group_specs ps) b h
  · intro n
    have h := lookup_group_specs_fold ps [] n
    rw [show lookup_group [] n = none from rfl] at h
    exact h
  · intro g b h
    cases hj : fold_joint ⟨some (.span VersionSpan.unbounded)⟩ g with
    | error u => rw [is_consistent, hj, except_bind_error] at h; cases h
    | ok j =>
      rw [is_consistent, hj, except_bind_ok] at h
      injection h with h
      exact ⟨j, rfl, h.symm⟩

/-- Claim C8, witness: the batch-reporting equation evaluated on a
two-clause conflicting input. -/
theorem check_validity_reports_all_conflicts_witness :
    [("numpy", [(">", "2.0"), ("<", "1.0")])] =
      (group_specs ["numpy>2.0", "numpy<1.0"]).filter
        (fun e => match is_consistent e.2 with | .ok false => true | _ => false) :=
  (check_validity_reports_all_conflicts ["numpy>2.0", "numpy<1.0"]).2.1 _ (by decide)

end CheckVersionValidity
